import Mathlib

/-!
Shallow embedding of the client-side session/orchestration UI state store of
`aurachain-ui` (`src/store/uiStore.ts`), together with the surrounding input
handling (`src/components/Chat/InputPanel.tsx`), and proofs of the testable
properties stated for it.

Modelling conventions:
* JavaScript `Date.now()` readings are threaded explicitly: every operation
  receives the millisecond values it would read, either as plain `Nat`
  arguments or as a function `clk : Nat → Nat` giving the value of the i-th
  `Date.now()` call performed by one `sendMessage` invocation.
* Network calls (`api.createSession`, `api.uploadDataset`, `api.sendQuery`)
  are modelled by passing their outcome (`Except` of failure or response) as
  an argument; the store code itself never retries.
* `new Date().toLocaleTimeString(...)` is a display-only formatting of the
  current time; it is abstracted by `localeTime` applied to the clock value of
  the surrounding statement.  No property below depends on timestamp text.
* A JavaScript `Map` is modelled as an insertion-ordered association list;
  `Map.set` updates an existing key in place or appends a fresh one.
* Numbers that the store produces with `Math.round` are modelled over `ℚ`
  with exact arithmetic (`jsRound`, round-half-towards-plus-infinity, which is
  what `Math.round` does).
-/

/-- Sender role of a chat message (`sender: 'user' | 'ai'` in
`MessageBubble.tsx`). -/
inductive MsgSender
  | user
  | ai
deriving DecidableEq, Repr

/-- Kind tag of a chat message (`type: 'text' | 'analysis' | 'agent_result'`
in `MessageBubble.tsx`).  The store only ever constructs `text` and
`analysis` messages. -/
inductive MsgType
  | text
  | analysis
  | agent_result
deriving DecidableEq, Repr

/-- Status of a message (`status?: 'processing' | 'completed' | 'failed'`). -/
inductive MsgStatus
  | processing
  | completed
  | failed
deriving DecidableEq, Repr

/-- Agent execution status, the value type of the store's `agentStatuses` map
(`'queued' | 'processing' | 'completed' | 'failed'`). -/
inductive AgentStatus
  | queued
  | processing
  | completed
  | failed
deriving DecidableEq, Repr

/-- The optional `metadata` bag of a message (`MessageBubble.tsx`).  The
`data` payload of an agent result is opaque to the store; it is modelled as an
optional string. -/
structure Metadata where
  agents : Option (List String) := none
  progress : Option Int := none
  data : Option String := none
  agent : Option String := none
  summary : Option String := none
  success : Option Bool := none
  error : Option String := none
  displayText : Option String := none
deriving DecidableEq, Repr

/-- A chat message (`Message` interface in `MessageBubble.tsx`). -/
structure Message where
  id : String
  sender : MsgSender
  text : String
  timestamp : String
  type : MsgType
  status : Option MsgStatus := none
  metadata : Option Metadata := none
deriving DecidableEq, Repr

/-- Active dataset context (`DatasetContext` in `uiStore.ts`); `shape` is the
(rows, columns) pair. -/
structure DatasetContext where
  dataset_id : String
  filename : String
  shape : Nat × Nat
  columns : List String
deriving DecidableEq, Repr

/-- An orchestration plan returned by the backend (`OrchestrationPlan` from
`services/api`): reasoning text plus the ordered agent list. -/
structure OrchestrationPlan where
  reasoning : String
  agents : List String
deriving DecidableEq, Repr

/-- One per-agent result inside a query response (`agent`, `success`, `data`,
`error` fields used by `uiStore.ts`). -/
structure AgentResponse where
  agent : String
  success : Bool
  data : Option String := none
  error : Option String := none
deriving DecidableEq, Repr

/-- Response of `api.sendQuery`: the orchestration plan and the per-agent
results, in the backend's order. -/
structure QueryResponse where
  orchestration_plan : OrchestrationPlan
  agent_responses : List AgentResponse
deriving DecidableEq, Repr

/-- Response of `api.createSession`; `session_id` may be absent. -/
structure CreateSessionRes where
  session_id : Option String := none
deriving DecidableEq, Repr

/-- Response of `api.uploadDataset`. -/
structure UploadRes where
  dataset_id : String
  filename : String
  shape : Nat × Nat
  columns : List String
deriving DecidableEq, Repr

/-- The store state (`UIState` in `uiStore.ts`), restricted to the data
fields; the action closures live outside the state. -/
structure UIState where
  isSidebarOpen : Bool
  isRightPanelOpen : Bool
  rightPanelWidth : Nat
  isDarkMode : Bool
  sessionId : Option String
  userId : String
  messages : List Message
  isThinking : Bool
  processingStep : Option String
  activeDataset : Option DatasetContext
  selectedAgentId : Option String
  currentPlan : Option OrchestrationPlan
  agentStatuses : List (String × AgentStatus)
deriving DecidableEq, Repr

/-- The initial store state (the literal initial values in `create(...)`). -/
def initState : UIState where
  isSidebarOpen := true
  isRightPanelOpen := false
  rightPanelWidth := 450
  isDarkMode := false
  sessionId := none
  userId := "demo_user_01"
  messages := []
  isThinking := false
  processingStep := none
  activeDataset := none
  selectedAgentId := none
  currentPlan := none
  agentStatuses := []

/-- Display-only abstraction of `new Date().toLocaleTimeString([], ...)`,
parameterised by the clock value at the statement. -/
def localeTime (t : Nat) : String :=
  Nat.repr t

/-- JavaScript string truthiness of `a || b` for an optional string `a`: the
fallback `b` is used when `a` is absent or empty. -/
def jsOrString (a : Option String) (b : String) : String :=
  match a with
  | none => b
  | some s => if s = "" then b else s

/-- JavaScript `Math.round` on exact rationals: round half towards plus
infinity. -/
def jsRound (q : ℚ) : Int :=
  Int.floor (q + 1 / 2)

/-- The progress value written after `completedCount = c` agents of
`totalAgents = total` have finished and one more completes:
`Math.round(((completedCount + 1) / totalAgents) * 100)` (uiStore.ts:218). -/
def progressVal (c total : Nat) : Int :=
  jsRound ((c + 1 : ℚ) / (total : ℚ) * 100)

/-- JavaScript `Map.set` on the insertion-ordered association list model:
update the existing key in place, else append. -/
def mapSet : List (String × AgentStatus) → String → AgentStatus → List (String × AgentStatus)
  | [], k, v => [(k, v)]
  | (k', v') :: rest, k, v =>
      if k' = k then (k, v) :: rest else (k', v') :: mapSet rest k v

/-- JavaScript `Map.get` on the association list model. -/
def mapGet : List (String × AgentStatus) → String → Option AgentStatus
  | [], _ => none
  | (k', v') :: rest, k => if k' = k then some v' else mapGet rest k

/-- `initializeSession` (uiStore.ts:85-95): on success the session id is the
server's id, with the JS-falsy fallback `sess_${Date.now()}`; on failure a
locally synthesized `offline_sess_${Date.now()}` id is stored. -/
def initSession (res : Except Unit CreateSessionRes) (t : Nat) (s : UIState) : UIState :=
  match res with
  | .ok r => { s with sessionId := some (jsOrString r.session_id ("sess_" ++ Nat.repr t)) }
  | .error _ => { s with sessionId := some ("offline_sess_" ++ Nat.repr t) }

/-- `uploadDataset` (uiStore.ts:97-125): on success replace the active
dataset and append one assistant confirmation message (whose rendered `text`
is the `displayText` template interpolating filename and row count); on
failure only log, changing nothing.  `t` is the `Date.now()` reading used for
the message id. -/
def uploadDataset (res : Except Unit UploadRes) (t : Nat) (s : UIState) : UIState :=
  match res with
  | .error _ => s
  | .ok r =>
      let s1 := { s with activeDataset := some ⟨r.dataset_id, r.filename, r.shape, r.columns⟩ }
      let sysMsg : Message :=
        { id := Nat.repr t
          sender := .ai
          text := "dataset_uploaded"
          timestamp := localeTime t
          type := .text
          metadata := some { displayText := some ("✅ Ingested **" ++ r.filename ++ "** (" ++ Nat.repr r.shape.1 ++ " rows). Ready for analysis.") } }
      { s1 with messages := s1.messages ++ [{ sysMsg with text := jsOrString ((sysMsg.metadata.getD {}).displayText) "" }] }

/-- The user message appended by `sendMessage` (uiStore.ts:132-138). -/
def mkUserMsg (t : Nat) (text : String) : Message :=
  { id := Nat.repr t
    sender := .user
    text := text
    timestamp := localeTime t
    type := .text }

/-- The reasoning message appended on a successful query
(uiStore.ts:151-157); its id is `(Date.now() + 1).toString()`. -/
def mkReasoningMsg (t : Nat) (resp : QueryResponse) : Message :=
  { id := Nat.repr (t + 1)
    sender := .ai
    text := resp.orchestration_plan.reasoning
    timestamp := localeTime t
    type := .text }

/-- The plan artifact message appended on a successful query
(uiStore.ts:161-172); its id is `(Date.now() + 2).toString()`. -/
def mkPlanMsg (t : Nat) (resp : QueryResponse) : Message :=
  { id := Nat.repr (t + 2)
    sender := .ai
    text := "Agent Execution Strategy"
    timestamp := localeTime t
    type := .analysis
    status := some .processing
    metadata := some { agents := some resp.orchestration_plan.agents, progress := some 0 } }

/-- The agent-result artifact message (uiStore.ts:195-209); its id is
`${Date.now()}_${agentRes.agent}`. -/
def mkResultMsg (t : Nat) (a : AgentResponse) : Message :=
  { id := Nat.repr t ++ "_" ++ a.agent
    sender := .ai
    text := a.agent
    timestamp := localeTime t
    type := .analysis
    status := some (if a.success then .completed else .failed)
    metadata := some
      { data := a.data
        summary := some "Click to view detailed report"
        agent := some a.agent
        success := some a.success
        error := a.error } }

/-- The assistant error message appended in the catch block
(uiStore.ts:245-251); it reuses the entry timestamp (uiStore.ts:130). -/
def mkErrMsg (tEntry tErr : Nat) (e : Option String) : Message :=
  { id := Nat.repr tErr
    sender := .ai
    text := "System Error: " ++ e.getD "Unknown error"
    timestamp := localeTime tEntry
    type := .text }

/-- Spread-update of a message's metadata with a new progress value:
`{ ...m, metadata: { ...m.metadata, progress: p } }` (uiStore.ts:218). -/
def withProgress (m : Message) (p : Int) : Message :=
  { m with metadata := some { m.metadata.getD {} with progress := some p } }

/-- Final plan-message update on query completion:
`{ ...m, status: 'completed', metadata: { ...m.metadata, progress: 100 } }`
(uiStore.ts:235). -/
def completePlan (m : Message) : Message :=
  { m with
    status := some .completed
    metadata := some { m.metadata.getD {} with progress := some 100 } }

/-- One iteration of the streaming-simulation loop (uiStore.ts:186-227) for
agent result `a`, with `completedCount = c`, `totalAgents = total` and
`Date.now() = t` at the result-message creation: mark the agent processing,
then (after the pacing delay) append the result artifact, update the plan
message's progress, record the agent's final status and select it. -/
def revealStep (planId : String) (total : Nat) (t : Nat) (c : Nat) (a : AgentResponse) (s : UIState) : UIState :=
  let s1 := { s with
    processingStep := some ("Activating " ++ a.agent ++ "...")
    agentStatuses := mapSet s.agentStatuses a.agent .processing }
  { s1 with
    agentStatuses := mapSet s1.agentStatuses a.agent (if a.success then .completed else .failed)
    selectedAgentId := some a.agent
    messages :=
      s1.messages.map (fun m => if m.id = planId then withProgress m (progressVal c total) else m)
        ++ [mkResultMsg t a] }

/-- The whole streaming-simulation loop, with `c` the running
`completedCount`; the i-th processed agent reads `Date.now()` as
`clk (3 + i)` (reads 0, 1, 2 were consumed by the user, reasoning and plan
messages). -/
def revealLoop (planId : String) (total : Nat) (clk : Nat → Nat) : List AgentResponse → Nat → UIState → UIState
  | [], _, s => s
  | a :: rest, c, s =>
      revealLoop planId total clk rest (c + 1) (revealStep planId total (clk (3 + c)) c a s)

/-- The list of intermediate states observed after each loop iteration, used
to state properties about the sequence of progress updates. -/
def revealTrace (planId : String) (total : Nat) (clk : Nat → Nat) : List AgentResponse → Nat → UIState → List UIState
  | [], _, _ => []
  | a :: rest, c, s =>
      let s' := revealStep planId total (clk (3 + c)) c a s
      s' :: revealTrace planId total clk rest (c + 1) s'

/-- `sendMessage` (uiStore.ts:127-254).  `tInit` is the `Date.now()` reading
available to `initializeSession` if it runs; `sres` the outcome of
`api.createSession`; `clk i` the value of the i-th `Date.now()` call of the
body; `api` the outcome of `api.sendQuery`.  Note that the code destructures
`sessionId` from the store *before* lazily initializing the session, so the
branch on `!sessionId` uses the entry value, and so does the query
(see `sentQuery`). -/
def sendMessage (tInit : Nat) (sres : Except Unit CreateSessionRes) (clk : Nat → Nat)
    (api : Except (Option String) QueryResponse) (text : String) (s : UIState) : UIState :=
  let s1 := if s.sessionId.isNone then initSession sres tInit s else s
  let userMsg := mkUserMsg (clk 0) text
  let s2 := { s1 with
    messages := s1.messages ++ [userMsg]
    isThinking := true
    processingStep := some "Orchestrator is analyzing request..." }
  match api with
  | .ok resp =>
      let reasoningMsg := mkReasoningMsg (clk 1) resp
      let s3 := { s2 with messages := s2.messages ++ [reasoningMsg] }
      let planMsg := mkPlanMsg (clk 2) resp
      let s4 := { s3 with
        messages := s3.messages ++ [planMsg]
        currentPlan := some resp.orchestration_plan
        isRightPanelOpen := true
        selectedAgentId := none }
      let s5 := revealLoop planMsg.id resp.agent_responses.length clk resp.agent_responses 0 s4
      { s5 with
        isThinking := false
        processingStep := none
        selectedAgentId := none
        messages := s5.messages.map (fun m => if m.id = planMsg.id then completePlan m else m) }
  | .error e =>
      { s2 with
        isThinking := false
        processingStep := none
        messages := s2.messages ++ [mkErrMsg (clk 0) (clk 1) e] }

/-- Arguments of the `api.sendQuery` call issued by `sendMessage`
(uiStore.ts:147-148).  All four come from the destructuring at entry
(uiStore.ts:128), so `session_id` is the *entry* value of `sessionId`
(the `sessionId!` assertion), not the value produced by a lazy
`initializeSession`. -/
structure QueryArgs where
  text : String
  session_id : Option String
  user_id : String
  dataset_id : Option String
deriving DecidableEq, Repr

/-- The query `sendMessage` sends for input `text` from entry state `s`. -/
def sentQuery (s : UIState) (text : String) : QueryArgs :=
  { text := text
    session_id := s.sessionId
    user_id := s.userId
    dataset_id := s.activeDataset.map (fun d => d.dataset_id) }

/-- `resetSession` (uiStore.ts:256-262). -/
def resetSession (s : UIState) : UIState :=
  { s with
    messages := []
    activeDataset := none
    currentPlan := none
    agentStatuses := []
    isRightPanelOpen := false }

/-- Executable model of JavaScript `String.prototype.trim`: drop whitespace
from both ends. -/
def jsTrim (s : String) : String :=
  ⟨((s.data.dropWhile Char.isWhitespace).reverse.dropWhile Char.isWhitespace).reverse⟩

/-- The input panel's submit handler (`InputPanel.tsx:15-19`): blank input
(empty after trimming) returns before invoking the store action; otherwise
the store action runs and the input field is cleared.  The store action is a
parameter; the result pairs the store state with the input-field text. -/
def handleSubmit (send : String → UIState → UIState) (text : String) (s : UIState) : UIState × String :=
  if jsTrim text = "" then (s, text) else (send text s, "")

/-- The final agent-result messages a successful `sendMessage` leaves in the
list: the i-th agent response (processed with `completedCount = c + i`) yields
`mkResultMsg` at clock reading `clk (3 + c + i)`. -/
def finalResults (clk : Nat → Nat) : Nat → List AgentResponse → List Message
  | _, [] => []
  | c, a :: rest => mkResultMsg (clk (3 + c)) a :: finalResults clk (c + 1) rest

/-- The ids of the agent-result messages, in creation order. -/
def resultIds (clk : Nat → Nat) : Nat → List AgentResponse → List String
  | _, [] => []
  | c, a :: rest => (Nat.repr (clk (3 + c)) ++ "_" ++ a.agent) :: resultIds clk (c + 1) rest

/-- The plan message after the progress updates of the loop iterations for
the given agent list, starting at `completedCount = c`. -/
def planAfter (total : Nat) : Message → Nat → List AgentResponse → Message
  | q, _, [] => q
  | q, c, _ :: rest => planAfter total (withProgress q (progressVal c total)) (c + 1) rest

/-- The sequence of progress values the loop writes to the plan message,
starting at `completedCount = c`. -/
def progressList (total : Nat) : Nat → List AgentResponse → List Int
  | _, [] => []
  | c, _ :: rest => progressVal c total :: progressList total (c + 1) rest

/-- The progress metadata of the (first) message with id `planId`. -/
def planProgressIn (planId : String) (msgs : List Message) : Option Int :=
  (msgs.find? (fun m => decide (m.id = planId))).bind (fun m => (m.metadata.getD {}).progress)

/-- A message carries per-agent result metadata exactly when the store
created it as an agent-result artifact (the `agent` metadata field set at
uiStore.ts:205); this realises the spec's `agent_result` message kind. -/
def isAgentResultMsg (m : Message) : Bool :=
  ((m.metadata.getD {}).agent).isSome

/-- One user-level command against the store, with all its external inputs
(clock readings and network outcomes) attached. -/
inductive Op
  | send (tInit : Nat) (sres : Except Unit CreateSessionRes) (clk : Nat → Nat)
      (api : Except (Option String) QueryResponse) (text : String)
  | upload (res : Except Unit UploadRes) (t : Nat)
  | reset

/-- Run one command against the store. -/
def applyOp : Op → UIState → UIState
  | .send tInit sres clk api text, s => sendMessage tInit sres clk api text s
  | .upload res t, s => uploadDataset res t s
  | .reset, s => resetSession s

/-- Run a sequence of commands against the store. -/
def runOps : List Op → UIState → UIState
  | [], s => s
  | op :: rest, s => runOps rest (applyOp op s)

/-- The `Date.now()` readings of the loop iterations. -/
def resultReads (clk : Nat → Nat) : Nat → List AgentResponse → List Nat
  | _, [] => []
  | c, _ :: rest => clk (3 + c) :: resultReads clk (c + 1) rest

/-- All `Date.now()` readings one command may perform, in program order. -/
def opReads : Op → List Nat
  | .send tInit _ clk api _ =>
      match api with
      | .ok resp => tInit :: clk 0 :: clk 1 :: clk 2 :: resultReads clk 0 resp.agent_responses
      | .error _ => [tInit, clk 0, clk 1]
  | .upload _ t => [t]
  | .reset => []

/-- All `Date.now()` readings of a command sequence, in program order. -/
def runReads : List Op → List Nat
  | [] => []
  | op :: rest => opReads op ++ runReads rest

/-- Clock discipline: starting from lower bound `b`, each reading is at least
the bound and raises the bound by three (the largest id offset the store adds
to a reading is 2, at uiStore.ts:162). -/
def incr3 : Nat → List Nat → Bool
  | _, [] => true
  | b, t :: ts => decide (b ≤ t) && incr3 (t + 3) ts

/-- The bound left after consuming a list of readings. -/
def endB : Nat → List Nat → Nat
  | b, [] => b
  | _, t :: ts => endB (t + 3) ts

/-- The source of a message id: either a plain number rendered with
`toString` (user, reasoning, plan, error and upload messages) or a
``${t}_${agent}`` pair (agent-result messages). -/
inductive IdSrc
  | num (n : Nat)
  | res (t : Nat) (agent : String)

/-- Render an id source to the id string the store produces. -/
def IdSrc.render : IdSrc → String
  | .num n => Nat.repr n
  | .res t a => Nat.repr t ++ "_" ++ a

/-- The numeric component of an id source. -/
def IdSrc.val : IdSrc → Nat
  | .num n => n
  | .res t _ => t

/-- Id sources of the agent-result messages of one loop run. -/
def resultSrcs (clk : Nat → Nat) : Nat → List AgentResponse → List IdSrc
  | _, [] => []
  | c, a :: rest => IdSrc.res (clk (3 + c)) a.agent :: resultSrcs clk (c + 1) rest

/-- Id sources of the messages one command appends, in order. -/
def opSrcs : Op → List IdSrc
  | .send _ _ clk api _ =>
      match api with
      | .ok resp =>
          .num (clk 0) :: .num (clk 1 + 1) :: .num (clk 2 + 2) ::
            resultSrcs clk 0 resp.agent_responses
      | .error _ => [.num (clk 0), .num (clk 1)]
  | .upload res t =>
      match res with
      | .ok _ => [.num t]
      | .error _ => []
  | .reset => []

/-- The decimal digit characters of a natural number, most significant
first; this is what `Nat.repr` produces (see `natChars_toDigitsCore`). -/
def natChars (n : Nat) : List Char :=
  if n < 10 then [Nat.digitChar n]
  else natChars (n / 10) ++ [Nat.digitChar (n % 10)]
termination_by n
decreasing_by exact Nat.div_lt_self (by omega) (by omega)

/-- Parse decimal digit characters back to the number they denote. -/
def charsVal (l : List Char) : Nat :=
  l.foldl (fun acc c => 10 * acc + (c.toNat - 48)) 0

/-- The two-agent demo response of the spec's scenario (§8). -/
def demoResp : QueryResponse where
  orchestration_plan := { reasoning := "Analyzing seasonality", agents := ["Harvester", "Forecaster"] }
  agent_responses := [{ agent := "Harvester", success := true }, { agent := "Forecaster", success := true }]

/-- The demo upload response of the spec's scenario (§8). -/
def demoUpload : UploadRes where
  dataset_id := "ds_001"
  filename := "data.csv"
  shape := (120, 4)
  columns := ["sku", "date", "qty", "price"]

/-- Invariant tying the store's message ids to their numeric sources: every
id renders some source, the sources' numeric components strictly increase in
message order, and all stay below the bound `B` (the next admissible clock
reading). -/
def IdsOK (B : Nat) (s : UIState) : Prop :=
  ∃ srcs : List IdSrc,
    s.messages.map Message.id = srcs.map IdSrc.render ∧
    List.Pairwise (fun x y => x.val < y.val) srcs ∧
    ∀ x ∈ srcs, x.val < B

example : progressVal 0 2 = 50 := by norm_num [progressVal, jsRound]
example : progressVal 1 2 = 100 := by norm_num [progressVal, jsRound]
example : progressVal 198 200 = 100 := by norm_num [progressVal, jsRound]
example : progressVal 198 300 = 66 := by norm_num [progressVal, jsRound]
example : jsRound ((199 : ℚ) / 200 * 100) = 100 := by norm_num [jsRound]

/-! ### Small preservation lemmas -/

@[simp] theorem withProgress_id (m : Message) (p : Int) : (withProgress m p).id = m.id := rfl

@[simp] theorem withProgress_sender (m : Message) (p : Int) : (withProgress m p).sender = m.sender := rfl

@[simp] theorem completePlan_id (m : Message) : (completePlan m).id = m.id := rfl

@[simp] theorem completePlan_sender (m : Message) : (completePlan m).sender = m.sender := rfl

@[simp] theorem initSession_messages (res : Except Unit CreateSessionRes) (t : Nat) (s : UIState) :
    (initSession res t s).messages = s.messages := by
  cases res <;> rfl

@[simp] theorem sendInit_messages (sres : Except Unit CreateSessionRes) (tInit : Nat) (s : UIState) :
    (if s.sessionId.isNone then initSession sres tInit s else s).messages = s.messages := by
  split <;> simp

@[simp] theorem sendInit_messages' (sres : Except Unit CreateSessionRes) (tInit : Nat) (s : UIState) :
    (if s.sessionId = none then initSession sres tInit s else s).messages = s.messages := by
  split <;> simp

theorem mapGet_mapSet (m : List (String × AgentStatus)) (k : String) (v : AgentStatus) :
    mapGet (mapSet m k v) k = some v := by
  induction m with
  | nil => simp [mapSet, mapGet]
  | cons p rest ih =>
      obtain ⟨k', v'⟩ := p
      by_cases h : k' = k
      · subst h; simp [mapSet, mapGet]
      · simp [mapSet, mapGet, h, ih]

theorem map_sender_update (l : List Message) (planId : String) (f : Message → Message)
    (hf : ∀ m, (f m).sender = m.sender) :
    (l.map (fun m => if m.id = planId then f m else m)).map Message.sender
      = l.map Message.sender := by
  rw [List.map_map]
  refine List.map_congr_left ?_
  intro m _
  by_cases h : m.id = planId <;> simp [h, hf]

theorem revealStep_senders (planId : String) (total t c : Nat) (a : AgentResponse) (s : UIState) :
    (revealStep planId total t c a s).messages.map Message.sender
      = s.messages.map Message.sender ++ [MsgSender.ai] := by
  simp only [revealStep, List.map_append]
  rw [map_sender_update s.messages planId (fun m => withProgress m (progressVal c total))
    (fun m => rfl)]
  rfl

theorem revealLoop_senders (planId : String) (total : Nat) (clk : Nat → Nat)
    (l : List AgentResponse) : ∀ (c : Nat) (s : UIState),
    (revealLoop planId total clk l c s).messages.map Message.sender
      = s.messages.map Message.sender ++ List.replicate l.length MsgSender.ai := by
  induction l with
  | nil => intro c s; simp [revealLoop]
  | cons a rest ih =>
      intro c s
      rw [revealLoop, ih, revealStep_senders]
      simp [List.replicate_succ]

theorem sendMessage_error_messages (tInit : Nat) (sres : Except Unit CreateSessionRes)
    (clk : Nat → Nat) (e : Option String) (text : String) (s : UIState) :
    (sendMessage tInit sres clk (.error e) text s).messages
      = s.messages ++ [mkUserMsg (clk 0) text, mkErrMsg (clk 0) (clk 1) e] := by
  simp [sendMessage]

theorem str_append_ne_empty_left {a : String} (b : String) (h : a ≠ "") : a ++ b ≠ "" := by
  intro hab
  have hd : a.data ++ b.data = [] := by
    have := congrArg String.data hab
    simpa [String.data_append] using this
  exact h (String.ext (List.append_eq_nil.mp hd).1)

/-! ### Claim theorems (first batch) -/

/-- C7: for every prior state, `resetSession` yields an empty message list, a
null active dataset, a null current plan and an empty agent-status map, while
leaving the session id (and user identity) unchanged. -/
theorem c7_resetSession_spec (s : UIState) :
    (resetSession s).messages = [] ∧
    (resetSession s).activeDataset = none ∧
    (resetSession s).currentPlan = none ∧
    (resetSession s).agentStatuses = [] ∧
    (resetSession s).sessionId = s.sessionId ∧
    (resetSession s).userId = s.userId :=
  ⟨rfl, rfl, rfl, rfl, rfl, rfl⟩

/-- C8: `uploadDataset` appends a message iff the upload succeeds: on success
it replaces the active dataset context and appends exactly one
assistant-authored text message whose text contains the uploaded filename and
the row count; on failure the state is returned unchanged (error only
logged). -/
theorem c8_uploadDataset_spec (r : UploadRes) (t : Nat) (s : UIState) :
    (∃ m : Message,
      (uploadDataset (.ok r) t s).messages = s.messages ++ [m] ∧
      m.sender = .ai ∧
      m.type = .text ∧
      (∃ x y, m.text = x ++ r.filename ++ y) ∧
      (∃ x y, m.text = x ++ Nat.repr r.shape.1 ++ y)) ∧
    (uploadDataset (.ok r) t s).activeDataset
      = some { dataset_id := r.dataset_id, filename := r.filename, shape := r.shape, columns := r.columns } ∧
    uploadDataset (.error ()) t s = s := by
  have hne : ("✅ Ingested **" ++ r.filename ++ "** (" ++ Nat.repr r.shape.1
      ++ " rows). Ready for analysis.") ≠ "" := by
    refine str_append_ne_empty_left _ (str_append_ne_empty_left _ (str_append_ne_empty_left _
      (str_append_ne_empty_left _ ?_)))
    decide
  refine ⟨⟨{ id := Nat.repr t
             sender := .ai
             text := "✅ Ingested **" ++ r.filename ++ "** (" ++ Nat.repr r.shape.1
               ++ " rows). Ready for analysis."
             timestamp := localeTime t
             type := .text
             metadata := some { displayText := some ("✅ Ingested **" ++ r.filename ++ "** ("
               ++ Nat.repr r.shape.1 ++ " rows). Ready for analysis.") } }, ?_, rfl, rfl,
      ⟨"✅ Ingested **",
      "** (" ++ Nat.repr r.shape.1 ++ " rows). Ready for analysis.", ?_⟩,
      ⟨"✅ Ingested **" ++ r.filename ++ "** (", " rows). Ready for analysis.", ?_⟩⟩, rfl, rfl⟩
  · simp [uploadDataset, jsOrString, hne]
  · simp [String.append_assoc]
  · simp [String.append_assoc]

/-- C6: when the query fails, `sendMessage` appends (after the optimistic
user message) exactly one assistant text message whose text surfaces the
error ("System Error: ..."), clears the thinking flag, and leaves every
previously present message — in particular any plan message of an earlier
query — untouched (the message list is extended, never rewritten, on this
path). -/
theorem c6_sendMessage_error_spec (tInit : Nat) (sres : Except Unit CreateSessionRes)
    (clk : Nat → Nat) (e : Option String) (text : String) (s : UIState) :
    (sendMessage tInit sres clk (.error e) text s).messages
      = s.messages ++ [mkUserMsg (clk 0) text, mkErrMsg (clk 0) (clk 1) e] ∧
    (mkUserMsg (clk 0) text).sender = .user ∧
    (mkErrMsg (clk 0) (clk 1) e).sender = .ai ∧
    (mkErrMsg (clk 0) (clk 1) e).type = .text ∧
    (∃ rest, (mkErrMsg (clk 0) (clk 1) e).text = "System Error: " ++ rest) ∧
    (sendMessage tInit sres clk (.error e) text s).isThinking = false := by
  refine ⟨sendMessage_error_messages tInit sres clk e text s, ?_, ?_, ?_,
    ⟨e.getD "Unknown error", ?_⟩, ?_⟩ <;> rfl

/-- C10: each loop iteration appends a result message whose status is
`completed` exactly when the agent's success flag is true and `failed`
otherwise, and the same update writes that very value into the agent-status
map entry of that agent. -/
theorem c10_revealStep_spec (planId : String) (total t c : Nat) (a : AgentResponse) (s : UIState) :
    (revealStep planId total t c a s).messages.getLast? = some (mkResultMsg t a) ∧
    (mkResultMsg t a).status = some (if a.success then MsgStatus.completed else .failed) ∧
    mapGet (revealStep planId total t c a s).agentStatuses a.agent
      = some (if a.success then AgentStatus.completed else .failed) := by
  refine ⟨?_, rfl, ?_⟩
  · simp [revealStep, List.getLast?_concat]
  · simp only [revealStep]
    exact mapGet_mapSet _ _ _

/-- C9: for every input (the non-blank hypothesis mirrors the claim), the
sender sequence after `sendMessage` is the old sender sequence, then exactly
one user message, then only assistant messages: one user message is appended,
before any assistant message of that query. -/
theorem c9_sendMessage_user_first (tInit : Nat) (sres : Except Unit CreateSessionRes)
    (clk : Nat → Nat) (api : Except (Option String) QueryResponse) (text : String)
    (s : UIState) (h : jsTrim text ≠ "") :
    ∃ k, (sendMessage tInit sres clk api text s).messages.map Message.sender
      = s.messages.map Message.sender ++ MsgSender.user :: List.replicate k MsgSender.ai := by
  cases api with
  | error e =>
      refine ⟨1, ?_⟩
      rw [sendMessage_error_messages]
      simp [mkUserMsg, mkErrMsg, List.replicate_succ]
  | ok resp =>
      refine ⟨resp.agent_responses.length + 2, ?_⟩
      simp only [sendMessage]
      rw [map_sender_update _ (mkPlanMsg (clk 2) resp).id completePlan (fun m => rfl),
        revealLoop_senders]
      simp [mkUserMsg, mkReasoningMsg, mkPlanMsg, List.replicate_succ, List.append_assoc]

/-- C9 witness: the theorem applied to a concrete non-blank input. -/
theorem c9_sendMessage_user_first_witness :
    jsTrim "Forecast Q3 demand" ≠ "" ∧
    (∃ k, (sendMessage 0 (.ok { session_id := some "s" }) (fun i => 10 * i) (.ok demoResp)
        "Forecast Q3 demand" initState).messages.map Message.sender
      = initState.messages.map Message.sender ++ MsgSender.user :: List.replicate k MsgSender.ai) :=
  ⟨by decide, c9_sendMessage_user_first 0 (.ok { session_id := some "s" }) (fun i => 10 * i)
    (.ok demoResp) "Forecast Q3 demand" initState (by decide)⟩

/-- C1 counterexample: `sendMessage` itself is not a no-op on blank input —
called with the empty string on the fresh store it still appends the user
message (and, the query failing, the error message): the message list grows
from 0 to 2 entries. -/
theorem c1_sendMessage_blank_cex :
    jsTrim "" = "" ∧ initState.messages.length = 0 ∧
    (sendMessage 0 (.ok { session_id := some "s" }) (fun i => 3 * i) (.error none) ""
      initState).messages.length = 2 := by
  refine ⟨rfl, rfl, ?_⟩
  rw [sendMessage_error_messages]
  rfl

/-- C1 (amended): the blank-input guard lives in the input panel's submit
handler, not in the store action: for input that is empty after trimming the
handler returns before invoking the store, leaving the store state (and the
input field) unchanged. -/
theorem c1_handleSubmit_blank_noop (send : String → UIState → UIState) (text : String)
    (s : UIState) (h : jsTrim text = "") :
    handleSubmit send text s = (s, text) := by
  simp [handleSubmit, h]

/-- C1 witness: the amended theorem applied to whitespace-only input. -/
theorem c1_handleSubmit_blank_noop_witness :
    jsTrim "   " = "" ∧ handleSubmit (fun _ s => s) "   " initState = (initState, "   ") :=
  ⟨by decide, c1_handleSubmit_blank_noop (fun _ s => s) "   " initState (by decide)⟩

/-- C4: the code bug evaluated at the failing input: starting from the fresh
store (no session), `sendMessage` does initialize a session before issuing
the query (afterwards the store holds the server-issued id), but the query it
sends carries the session id captured by the destructuring at entry — `none`,
not the id of the session just created (`sessionId!` is a false non-null
assertion on this path). -/
theorem c4_sendMessage_staleSession_bug :
    initState.sessionId = none ∧
    (sendMessage 5 (.ok { session_id := some "srv_1" }) (fun i => 10 + 3 * i) (.error none)
      "hello" initState).sessionId = some "srv_1" ∧
    (sentQuery initState "hello").session_id = none := by
  refine ⟨rfl, ?_, rfl⟩
  decide

/-- C5 counterexample: two messages created in the same millisecond share an
id.  A single `sendMessage` whose clock never advances (all `Date.now()`
readings equal 0) and whose query fails appends a user message and an error
message that both get id `"0"`. -/
theorem c5_messageIds_clash_cex :
    ¬ (((runOps [Op.send 0 (.ok { session_id := some "s" }) (fun _ => 0) (.error none) "hi"]
      initState).messages.map Message.id).Nodup) := by
  decide

/-! ### Loop characterization -/

theorem map_update_fresh (planId : String) (f : Message → Message) :
    ∀ (l : List Message), (∀ m ∈ l, m.id ≠ planId) →
      l.map (fun m => if m.id = planId then f m else m) = l
  | [], _ => rfl
  | m :: rest, h => by
      rw [List.map_cons, if_neg (h m (List.mem_cons_self m rest)),
        map_update_fresh planId f rest (fun x hx => h x (List.mem_cons_of_mem m hx))]

theorem withProgress_withProgress (m : Message) (p q : Int) :
    withProgress (withProgress m p) q = withProgress m q := rfl

theorem completePlan_withProgress (m : Message) (p : Int) :
    completePlan (withProgress m p) = completePlan m := rfl

theorem planAfter_id (total : Nat) :
    ∀ (l : List AgentResponse) (q : Message) (c : Nat), (planAfter total q c l).id = q.id
  | [], _, _ => rfl
  | _ :: rest, q, c => by
      rw [planAfter, planAfter_id total rest _ _, withProgress_id]

theorem completePlan_planAfter (total : Nat) :
    ∀ (l : List AgentResponse) (q : Message) (c : Nat),
      completePlan (planAfter total q c l) = completePlan q
  | [], _, _ => rfl
  | _ :: rest, q, c => by
      rw [planAfter, completePlan_planAfter total rest _ _, completePlan_withProgress]

theorem finalResults_ids (clk : Nat → Nat) :
    ∀ (l : List AgentResponse) (c : Nat), (finalResults clk c l).map Message.id = resultIds clk c l
  | [], _ => rfl
  | a :: rest, c => by
      rw [finalResults, resultIds, List.map_cons, finalResults_ids clk rest (c + 1)]
      rfl

theorem finalResults_length (clk : Nat → Nat) :
    ∀ (l : List AgentResponse) (c : Nat), (finalResults clk c l).length = l.length
  | [], _ => rfl
  | _ :: rest, c => by
      rw [finalResults, List.length_cons, List.length_cons, finalResults_length clk rest (c + 1)]

theorem finalResults_agents (clk : Nat → Nat) :
    ∀ (l : List AgentResponse) (c : Nat),
      (finalResults clk c l).map (fun m => (m.metadata.getD {}).agent)
        = l.map (fun a => some a.agent)
  | [], _ => rfl
  | a :: rest, c => by
      rw [finalResults, List.map_cons, List.map_cons, finalResults_agents clk rest (c + 1)]
      rfl

theorem revealStep_messages (planId : String) (total t c : Nat) (a : AgentResponse)
    (s : UIState) (M1 M2 : List Message) (q : Message)
    (hs : s.messages = M1 ++ q :: M2) (hq : q.id = planId)
    (h1 : ∀ m ∈ M1, m.id ≠ planId) (h2 : ∀ m ∈ M2, m.id ≠ planId) :
    (revealStep planId total t c a s).messages
      = M1 ++ withProgress q (progressVal c total) :: (M2 ++ [mkResultMsg t a]) := by
  simp only [revealStep, hs, List.map_append, List.map_cons, if_pos hq]
  rw [map_update_fresh planId _ M1 h1, map_update_fresh planId _ M2 h2]
  simp [List.append_assoc]

theorem revealLoop_messages (planId : String) (total : Nat) (clk : Nat → Nat) :
    ∀ (l : List AgentResponse) (c : Nat) (M1 M2 : List Message) (q : Message) (s : UIState),
      s.messages = M1 ++ q :: M2 → q.id = planId →
      (∀ m ∈ M1, m.id ≠ planId) → (∀ m ∈ M2, m.id ≠ planId) →
      (∀ x ∈ resultIds clk c l, x ≠ planId) →
      (revealLoop planId total clk l c s).messages
        = M1 ++ planAfter total q c l :: (M2 ++ finalResults clk c l)
  | [], c, M1, M2, q, s, hs, _, _, _, _ => by
      simpa [revealLoop, planAfter, finalResults] using hs
  | a :: rest, c, M1, M2, q, s, hs, hq, h1, h2, hres => by
      have hhead : (mkResultMsg (clk (3 + c)) a).id ≠ planId :=
        hres _ (by rw [resultIds]; exact List.mem_cons_self _ _)
      have h2' : ∀ m ∈ M2 ++ [mkResultMsg (clk (3 + c)) a], m.id ≠ planId := by
        intro m hm
        rcases List.mem_append.mp hm with hm | hm
        · exact h2 m hm
        · rcases List.mem_singleton.mp hm with rfl
          exact hhead
      have hres' : ∀ x ∈ resultIds clk (c + 1) rest, x ≠ planId := by
        intro x hx
        exact hres x (by rw [resultIds]; exact List.mem_cons_of_mem _ hx)
      rw [revealLoop,
        revealLoop_messages planId total clk rest (c + 1) M1 (M2 ++ [mkResultMsg (clk (3 + c)) a])
          (withProgress q (progressVal c total)) _
          (revealStep_messages planId total (clk (3 + c)) c a s M1 M2 q hs hq h1 h2)
          (by rw [withProgress_id, hq]) h1 h2' hres']
      rw [planAfter, finalResults]
      simp [List.append_assoc]

theorem finalResults_fresh (clk : Nat → Nat) (planId : String) :
    ∀ (l : List AgentResponse) (c : Nat),
      (∀ x ∈ resultIds clk c l, x ≠ planId) →
      ∀ m ∈ finalResults clk c l, m.id ≠ planId := by
  intro l c h m hm
  apply h
  rw [← finalResults_ids]
  exact List.mem_map_of_mem _ hm

theorem finalResults_isAgentResult (clk : Nat → Nat) :
    ∀ (l : List AgentResponse) (c : Nat), ∀ m ∈ finalResults clk c l, isAgentResultMsg m = true
  | [], _, m, hm => by cases hm
  | a :: rest, c, m, hm => by
      rcases List.mem_cons.mp hm with rfl | hm
      · rfl
      · exact finalResults_isAgentResult clk rest (c + 1) m hm

theorem sendMessage_ok_messages (tInit : Nat) (sres : Except Unit CreateSessionRes)
    (clk : Nat → Nat) (resp : QueryResponse) (text : String) (s : UIState)
    (h1 : ∀ m ∈ s.messages, m.id ≠ (mkPlanMsg (clk 2) resp).id)
    (h2 : (mkUserMsg (clk 0) text).id ≠ (mkPlanMsg (clk 2) resp).id)
    (h3 : (mkReasoningMsg (clk 1) resp).id ≠ (mkPlanMsg (clk 2) resp).id)
    (h4 : ∀ x ∈ resultIds clk 0 resp.agent_responses, x ≠ (mkPlanMsg (clk 2) resp).id) :
    (sendMessage tInit sres clk (.ok resp) text s).messages
      = s.messages ++ mkUserMsg (clk 0) text :: mkReasoningMsg (clk 1) resp
          :: completePlan (mkPlanMsg (clk 2) resp) :: finalResults clk 0 resp.agent_responses := by
  have hM1 : ∀ m ∈ s.messages ++ [mkUserMsg (clk 0) text, mkReasoningMsg (clk 1) resp],
      m.id ≠ (mkPlanMsg (clk 2) resp).id := by
    intro m hm
    rcases List.mem_append.mp hm with hm | hm
    · exact h1 m hm
    · rcases List.mem_cons.mp hm with rfl | hm
      · exact h2
      · rcases List.mem_singleton.mp hm with rfl
        exact h3
  simp only [sendMessage]
  rw [revealLoop_messages (mkPlanMsg (clk 2) resp).id resp.agent_responses.length clk
    resp.agent_responses 0
    (s.messages ++ [mkUserMsg (clk 0) text, mkReasoningMsg (clk 1) resp]) []
    (mkPlanMsg (clk 2) resp) _
    (by simp) rfl hM1 (by simp) h4]
  rw [List.nil_append, List.map_append, List.map_cons]
  rw [map_update_fresh _ _ _ hM1]
  rw [if_pos (planAfter_id _ _ _ _), completePlan_planAfter]
  rw [map_update_fresh _ _ _ (finalResults_fresh clk _ resp.agent_responses 0 h4)]
  simp [List.append_assoc]

/-- C2: after a successful query with N agent results, `sendMessage` appends
(after the user, reasoning and plan messages) exactly N agent-result messages
— one per backend result, in the backend's array order, with no re-sorting —
and the plan message ends with status `completed` and progress exactly 100.
The freshness hypotheses say the plan message's generated id collides with no
pre-existing or just-generated message id (see C5 for the id discipline). -/
theorem c2_sendMessage_ok_spec (tInit : Nat) (sres : Except Unit CreateSessionRes)
    (clk : Nat → Nat) (resp : QueryResponse) (text : String) (s : UIState)
    (h1 : ∀ m ∈ s.messages, m.id ≠ (mkPlanMsg (clk 2) resp).id)
    (h2 : (mkUserMsg (clk 0) text).id ≠ (mkPlanMsg (clk 2) resp).id)
    (h3 : (mkReasoningMsg (clk 1) resp).id ≠ (mkPlanMsg (clk 2) resp).id)
    (h4 : ∀ x ∈ resultIds clk 0 resp.agent_responses, x ≠ (mkPlanMsg (clk 2) resp).id) :
    (sendMessage tInit sres clk (.ok resp) text s).messages
      = s.messages ++ mkUserMsg (clk 0) text :: mkReasoningMsg (clk 1) resp
          :: completePlan (mkPlanMsg (clk 2) resp) :: finalResults clk 0 resp.agent_responses
    ∧ (completePlan (mkPlanMsg (clk 2) resp)).status = some .completed
    ∧ ((completePlan (mkPlanMsg (clk 2) resp)).metadata.getD {}).progress = some 100
    ∧ (finalResults clk 0 resp.agent_responses).length = resp.agent_responses.length
    ∧ (finalResults clk 0 resp.agent_responses).map (fun m => (m.metadata.getD {}).agent)
        = resp.agent_responses.map (fun a => some a.agent)
    ∧ (∀ m ∈ finalResults clk 0 resp.agent_responses, isAgentResultMsg m = true)
    ∧ isAgentResultMsg (mkUserMsg (clk 0) text) = false
    ∧ isAgentResultMsg (mkReasoningMsg (clk 1) resp) = false
    ∧ isAgentResultMsg (completePlan (mkPlanMsg (clk 2) resp)) = false := by
  refine ⟨sendMessage_ok_messages tInit sres clk resp text s h1 h2 h3 h4, rfl, rfl,
    finalResults_length clk _ 0, finalResults_agents clk _ 0,
    finalResults_isAgentResult clk _ 0, rfl, rfl, rfl⟩

/-- C2 witness: the theorem applied to the spec's two-agent scenario from the
fresh store, with the identity clock. -/
theorem c2_sendMessage_ok_spec_witness :
    (∀ m ∈ initState.messages, m.id ≠ (mkPlanMsg 2 demoResp).id) ∧
    (mkUserMsg 0 "Forecast Q3 demand").id ≠ (mkPlanMsg 2 demoResp).id ∧
    (mkReasoningMsg 1 demoResp).id ≠ (mkPlanMsg 2 demoResp).id ∧
    (∀ x ∈ resultIds (fun i => i) 0 demoResp.agent_responses, x ≠ (mkPlanMsg 2 demoResp).id) ∧
    ((sendMessage 7 (.ok { session_id := some "s" }) (fun i => i) (.ok demoResp)
        "Forecast Q3 demand" initState).messages
      = initState.messages ++ mkUserMsg 0 "Forecast Q3 demand" :: mkReasoningMsg 1 demoResp
          :: completePlan (mkPlanMsg 2 demoResp)
          :: finalResults (fun i => i) 0 demoResp.agent_responses
    ∧ (completePlan (mkPlanMsg 2 demoResp)).status = some .completed
    ∧ ((completePlan (mkPlanMsg 2 demoResp)).metadata.getD {}).progress = some 100
    ∧ (finalResults (fun i => i) 0 demoResp.agent_responses).length
        = demoResp.agent_responses.length
    ∧ (finalResults (fun i => i) 0 demoResp.agent_responses).map
          (fun m => (m.metadata.getD {}).agent)
        = demoResp.agent_responses.map (fun a => some a.agent)
    ∧ (∀ m ∈ finalResults (fun i => i) 0 demoResp.agent_responses, isAgentResultMsg m = true)
    ∧ isAgentResultMsg (mkUserMsg 0 "Forecast Q3 demand") = false
    ∧ isAgentResultMsg (mkReasoningMsg 1 demoResp) = false
    ∧ isAgentResultMsg (completePlan (mkPlanMsg 2 demoResp)) = false) :=
  ⟨by decide, by decide, by decide, by decide,
    c2_sendMessage_ok_spec 7 (.ok { session_id := some "s" }) (fun i => i) demoResp
      "Forecast Q3 demand" initState (by decide) (by decide) (by decide) (by decide)⟩

/-! ### Progress-trace lemmas -/

theorem find_plan_skip (planId : String) :
    ∀ (M1 rest : List Message), (∀ m ∈ M1, m.id ≠ planId) →
      (M1 ++ rest).find? (fun m => decide (m.id = planId))
        = rest.find? (fun m => decide (m.id = planId))
  | [], _, _ => rfl
  | m :: M1', rest, h => by
      rw [List.cons_append,
        List.find?_cons_of_neg _ (by simp [h m (List.mem_cons_self m M1')]),
        find_plan_skip planId M1' rest (fun x hx => h x (List.mem_cons_of_mem m hx))]

theorem planProgressIn_at (planId : String) (M1 M2 : List Message) (q : Message) (p : Int)
    (h1 : ∀ m ∈ M1, m.id ≠ planId) (hq : q.id = planId) :
    planProgressIn planId (M1 ++ withProgress q p :: M2) = some p := by
  rw [planProgressIn, find_plan_skip planId M1 _ h1,
    List.find?_cons_of_pos _ (by simp [hq])]
  rfl

theorem revealTrace_progress (planId : String) (total : Nat) (clk : Nat → Nat) :
    ∀ (l : List AgentResponse) (c : Nat) (M1 M2 : List Message) (q : Message) (s : UIState),
      s.messages = M1 ++ q :: M2 → q.id = planId →
      (∀ m ∈ M1, m.id ≠ planId) → (∀ m ∈ M2, m.id ≠ planId) →
      (∀ x ∈ resultIds clk c l, x ≠ planId) →
      (revealTrace planId total clk l c s).map (fun st => planProgressIn planId st.messages)
        = (progressList total c l).map some
  | [], _, _, _, _, _, _, _, _, _, _ => rfl
  | a :: rest, c, M1, M2, q, s, hs, hq, h1, h2, hres => by
      have hstep := revealStep_messages planId total (clk (3 + c)) c a s M1 M2 q hs hq h1 h2
      have hhead : (mkResultMsg (clk (3 + c)) a).id ≠ planId :=
        hres _ (by rw [resultIds]; exact List.mem_cons_self _ _)
      have h2' : ∀ m ∈ M2 ++ [mkResultMsg (clk (3 + c)) a], m.id ≠ planId := by
        intro m hm
        rcases List.mem_append.mp hm with hm | hm
        · exact h2 m hm
        · rcases List.mem_singleton.mp hm with rfl
          exact hhead
      have hres' : ∀ x ∈ resultIds clk (c + 1) rest, x ≠ planId := by
        intro x hx
        exact hres x (by rw [resultIds]; exact List.mem_cons_of_mem _ hx)
      rw [revealTrace, List.map_cons, progressList, List.map_cons]
      rw [show planProgressIn planId (revealStep planId total (clk (3 + c)) c a s).messages
          = some (progressVal c total) from by
        rw [hstep]; exact planProgressIn_at planId M1 _ q (progressVal c total) h1 hq]
      rw [revealTrace_progress planId total clk rest (c + 1) M1
        (M2 ++ [mkResultMsg (clk (3 + c)) a]) (withProgress q (progressVal c total)) _
        hstep (by rw [withProgress_id, hq]) h1 h2' hres']

theorem progressList_eq_range (total : Nat) :
    ∀ (l : List AgentResponse) (c : Nat),
      progressList total c l = (List.range l.length).map (fun i => progressVal (c + i) total)
  | [], _ => rfl
  | a :: rest, c => by
      rw [progressList, progressList_eq_range total rest (c + 1), List.length_cons,
        List.range_succ_eq_map, List.map_cons, List.map_map]
      refine congrArg₂ List.cons rfl (List.map_congr_left ?_)
      intro i _
      show progressVal (c + 1 + i) total = progressVal (c + (i + 1)) total
      congr 1
      omega

theorem progressVal_mono (c total : Nat) (h : 0 < total) :
    progressVal c total ≤ progressVal (c + 1) total := by
  apply Int.floor_le_floor
  have ht : (0 : ℚ) < (total : ℚ) := by exact_mod_cast h
  gcongr
  norm_num

theorem progress_chain (N : Nat) :
    List.Chain' (· ≤ ·) ((List.range N).map (fun k => progressVal k N)) := by
  rw [List.chain'_map]
  cases N with
  | zero => simp
  | succ n =>
      rw [List.chain'_range_succ]
      intro m _
      exact progressVal_mono m (n + 1) (Nat.succ_pos n)

theorem progressVal_last (N : Nat) (h : 0 < N) : progressVal (N - 1) N = 100 := by
  have h1 : (1 : ℕ) ≤ N := h
  have ht : (0 : ℚ) < (N : ℚ) := by exact_mod_cast h
  have hcast : ((N - 1 : Nat) : ℚ) + 1 = (N : ℚ) := by
    rw [Nat.cast_sub h1]
    push_cast
    ring
  rw [progressVal, hcast, div_self ht.ne', one_mul]
  norm_num [jsRound]

theorem progressVal_lt_100 (i N : Nat) (hN : N < 200) (hi : i + 1 < N) :
    progressVal i N < 100 := by
  have ht : (0 : ℚ) < (N : ℚ) := by
    have : 0 < N := by omega
    exact_mod_cast this
  rw [progressVal, jsRound]
  have hiq : ((i : ℚ) + 1) ≤ (N : ℚ) - 1 := by
    have h2 : (i : ℚ) + 2 ≤ (N : ℚ) := by exact_mod_cast hi
    linarith
  have hA : ((i : ℚ) + 1) / N * 100 ≤ ((N : ℚ) - 1) / N * 100 := by gcongr
  have hB : ((N : ℚ) - 1) / N * 100 = 100 - 100 / N := by
    rw [sub_div, div_self ht.ne']
    ring
  have hC : (1 : ℚ) / 2 < 100 / N := by
    rw [div_lt_div_iff₀ (by norm_num) ht]
    have : (N : ℚ) < 200 := by exact_mod_cast hN
    linarith
  refine Int.floor_lt.mpr ?_
  push_cast
  linarith

/-- C3 (amended): during one successful query on a plan with N agent results
(the loop of `sendMessage`, here `revealTrace` started at the state holding
the freshly appended plan message), the sequence of progress values written
to the plan message is exactly `round(k/N*100)` for k = 1..N in order
(`progressVal (k-1) N`), hence monotonically non-decreasing, and the last
write stores exactly 100; but 100 can already be attained strictly before the
last agent (round((N-1)/N·100) = 100 whenever N ≥ 200, see the
counterexample), so "reaches exactly 100 only after the last agent" holds
only for plans with fewer than 200 agents. -/
theorem c3_progress_sequence_spec (planId : String) (clk : Nat → Nat)
    (l : List AgentResponse) (M1 M2 : List Message) (q : Message) (s : UIState)
    (hs : s.messages = M1 ++ q :: M2) (hq : q.id = planId)
    (h1 : ∀ m ∈ M1, m.id ≠ planId) (h2 : ∀ m ∈ M2, m.id ≠ planId)
    (hres : ∀ x ∈ resultIds clk 0 l, x ≠ planId) :
    (revealTrace planId l.length clk l 0 s).map (fun st => planProgressIn planId st.messages)
        = ((List.range l.length).map (fun k => progressVal k l.length)).map some
    ∧ List.Chain' (· ≤ ·) ((List.range l.length).map (fun k => progressVal k l.length))
    ∧ (l ≠ [] → progressVal (l.length - 1) l.length = 100)
    ∧ (l.length < 200 → ∀ i, i + 1 < l.length → progressVal i l.length < 100) := by
  refine ⟨?_, progress_chain l.length,
    fun hl => progressVal_last l.length (by simpa [List.length_pos] using hl),
    fun hN i hi => progressVal_lt_100 i l.length hN hi⟩
  rw [revealTrace_progress planId l.length clk l 0 M1 M2 q s hs hq h1 h2 hres,
    progressList_eq_range]
  simp

/-- C3 counterexample: with 200 agents, the progress write of the 199-th
iteration (`completedCount = 198`, not the last agent) already stores 100 in
the plan message, refuting "reaches exactly 100 only after the last agent's
result is revealed". -/
theorem c3_progress_early_100_cex :
    planProgressIn "2"
      ((revealStep "2" 200 7 198 { agent := "A", success := true }
        { initState with messages := [mkPlanMsg 0 demoResp] }).messages)
      = some 100 ∧ 198 + 1 ≠ 200 := by
  refine ⟨?_, by decide⟩
  rw [revealStep_messages "2" 200 7 198 _ _ [] [] _ rfl (by decide) (by simp) (by simp)]
  rw [planProgressIn_at "2" [] _ _ _ (by simp) (by decide)]
  norm_num [progressVal, jsRound]

/-- C3 witness: the amended theorem applied to the two-agent demo scenario. -/
theorem c3_progress_sequence_spec_witness :
    (({ initState with messages := [mkPlanMsg 2 demoResp] } : UIState).messages
        = [] ++ mkPlanMsg 2 demoResp :: []) ∧
    (mkPlanMsg 2 demoResp).id = (mkPlanMsg 2 demoResp).id ∧
    (∀ m ∈ ([] : List Message), m.id ≠ (mkPlanMsg 2 demoResp).id) ∧
    (∀ m ∈ ([] : List Message), m.id ≠ (mkPlanMsg 2 demoResp).id) ∧
    (∀ x ∈ resultIds (fun i => i) 0 demoResp.agent_responses,
        x ≠ (mkPlanMsg 2 demoResp).id) ∧
    ((revealTrace (mkPlanMsg 2 demoResp).id demoResp.agent_responses.length (fun i => i)
        demoResp.agent_responses 0 { initState with messages := [mkPlanMsg 2 demoResp] }).map
          (fun st => planProgressIn (mkPlanMsg 2 demoResp).id st.messages)
        = ((List.range demoResp.agent_responses.length).map
            (fun k => progressVal k demoResp.agent_responses.length)).map some
    ∧ List.Chain' (· ≤ ·) ((List.range demoResp.agent_responses.length).map
        (fun k => progressVal k demoResp.agent_responses.length))
    ∧ (demoResp.agent_responses ≠ [] →
        progressVal (demoResp.agent_responses.length - 1) demoResp.agent_responses.length = 100)
    ∧ (demoResp.agent_responses.length < 200 → ∀ i, i + 1 < demoResp.agent_responses.length →
        progressVal i demoResp.agent_responses.length < 100)) :=
  ⟨rfl, rfl, by decide, by decide, by decide,
    c3_progress_sequence_spec (mkPlanMsg 2 demoResp).id (fun i => i)
      demoResp.agent_responses [] [] (mkPlanMsg 2 demoResp)
      { initState with messages := [mkPlanMsg 2 demoResp] }
      rfl rfl (by decide) (by decide) (by decide)⟩

/-! ### Decimal rendering of ids -/

theorem digitChar_toNat : ∀ d, d < 10 → (Nat.digitChar d).toNat = d + 48 := by decide

theorem digitChar_ne_underscore : ∀ d, d < 10 → Nat.digitChar d ≠ '_' := by decide

theorem natChars_toDigitsCore :
    ∀ (fuel n : Nat) (ds : List Char), n < fuel →
      Nat.toDigitsCore 10 fuel n ds = natChars n ++ ds := by
  intro fuel
  induction fuel with
  | zero => intro n ds h; omega
  | succ fuel ih =>
      intro n ds h
      rw [Nat.toDigitsCore]
      by_cases h10 : n / 10 = 0
      · have hn : n < 10 := by omega
        have hm : n % 10 = n := by omega
        rw [natChars, if_pos hn]
        simp [h10, hm]
      · have hn : ¬ n < 10 := by omega
        rw [if_neg h10, ih (n / 10) (Nat.digitChar (n % 10) :: ds) (by omega)]
        conv_rhs => rw [natChars]
        rw [if_neg hn]
        simp [List.append_assoc]

theorem natRepr_eq_natChars (n : Nat) : Nat.repr n = (natChars n).asString := by
  show (Nat.toDigits 10 n).asString = (natChars n).asString
  rw [Nat.toDigits, natChars_toDigitsCore (n + 1) n [] (Nat.lt_succ_self n), List.append_nil]

theorem charsVal_aux (n : Nat) :
    ∀ a : Nat, List.foldl (fun acc c => 10 * acc + (c.toNat - 48)) a (natChars n)
      = a * 10 ^ (natChars n).length + n := by
  induction n using Nat.strong_induction_on with
  | _ n ih =>
    intro a
    by_cases h : n < 10
    · rw [natChars, if_pos h]
      simp [List.foldl, digitChar_toNat n h]
      omega
    · rw [natChars, if_neg h]
      rw [List.foldl_append, ih (n / 10) (by omega) a]
      simp only [List.foldl, digitChar_toNat (n % 10) (by omega), List.length_append,
        List.length_singleton]
      rw [pow_succ]
      have hdm : 10 * (n / 10) + n % 10 = n := Nat.div_add_mod n 10
      ring_nf
      omega

theorem charsVal_natChars (n : Nat) : charsVal (natChars n) = n := by
  rw [charsVal, charsVal_aux n 0]
  simp

theorem natChars_inj {m n : Nat} (h : natChars m = natChars n) : m = n := by
  have := congrArg charsVal h
  rwa [charsVal_natChars, charsVal_natChars] at this

theorem natRepr_inj {m n : Nat} (h : Nat.repr m = Nat.repr n) : m = n := by
  rw [natRepr_eq_natChars, natRepr_eq_natChars] at h
  exact natChars_inj (congrArg String.data h)

theorem natChars_no_underscore (n : Nat) : '_' ∉ natChars n := by
  induction n using Nat.strong_induction_on with
  | _ n ih =>
    by_cases h : n < 10
    · rw [natChars, if_pos h]
      simp
      exact fun hc => digitChar_ne_underscore n h hc.symm
    · rw [natChars, if_neg h]
      simp
      refine ⟨ih (n / 10) (by omega), ?_⟩
      exact fun hc => digitChar_ne_underscore (n % 10) (by omega) hc.symm

theorem natRepr_no_underscore (n : Nat) : '_' ∉ (Nat.repr n).data := by
  rw [natRepr_eq_natChars]
  exact natChars_no_underscore n

theorem split_at_first_sep :
    ∀ (l1 l2 r1 r2 : List Char), l1 ++ '_' :: r1 = l2 ++ '_' :: r2 →
      '_' ∉ l1 → '_' ∉ l2 → l1 = l2 ∧ r1 = r2
  | [], [], r1, r2, h, _, _ => by
      simp only [List.nil_append, List.cons.injEq] at h
      exact ⟨rfl, h.2⟩
  | [], c2 :: l2', r1, r2, h, _, h2 => by
      simp only [List.nil_append, List.cons_append, List.cons.injEq] at h
      exact absurd (h.1 ▸ List.mem_cons_self c2 l2') h2
  | c1 :: l1', [], r1, r2, h, h1, _ => by
      simp only [List.nil_append, List.cons_append, List.cons.injEq] at h
      exact absurd (h.1.symm ▸ List.mem_cons_self c1 l1') h1
  | c1 :: l1', c2 :: l2', r1, r2, h, h1, h2 => by
      simp only [List.cons_append, List.cons.injEq] at h
      obtain ⟨hc, ht⟩ := h
      obtain ⟨hl, hr⟩ := split_at_first_sep l1' l2' r1 r2 ht
        (fun hx => h1 (List.mem_cons_of_mem c1 hx))
        (fun hx => h2 (List.mem_cons_of_mem c2 hx))
      exact ⟨by rw [hc, hl], hr⟩

theorem resSep_inj {t u : Nat} {a b : String}
    (h : Nat.repr t ++ "_" ++ a = Nat.repr u ++ "_" ++ b) : t = u ∧ a = b := by
  have hd := congrArg String.data h
  simp only [String.data_append] at hd
  have hsep := split_at_first_sep (Nat.repr t).data (Nat.repr u).data a.data b.data
    (by simpa [List.append_assoc] using hd)
    (natRepr_no_underscore t) (natRepr_no_underscore u)
  exact ⟨natRepr_inj (String.ext hsep.1), String.ext hsep.2⟩

theorem num_ne_res (m t : Nat) (a : String) : Nat.repr m ≠ Nat.repr t ++ "_" ++ a := by
  intro h
  apply natRepr_no_underscore m
  have hd := congrArg String.data h
  simp only [String.data_append] at hd
  rw [hd]
  simp

theorem render_ne_of_val_lt :
    ∀ (x y : IdSrc), x.val < y.val → x.render ≠ y.render := by
  intro x y hlt
  cases x with
  | num m =>
      cases y with
      | num n =>
          intro h
          exact absurd (natRepr_inj h) (by simp [IdSrc.val] at hlt; omega)
      | res t a => exact num_ne_res m t a
  | res t a =>
      cases y with
      | num n => exact fun h => num_ne_res n t a h.symm
      | res u b =>
          intro h
          have := (resSep_inj h).1
          simp [IdSrc.val] at hlt
          omega

/-! ### Clock discipline -/

theorem incr3_le : ∀ (l : List Nat) (b : Nat), incr3 b l = true → ∀ x ∈ l, b ≤ x
  | [], _, _, x, hx => absurd hx (List.not_mem_nil x)
  | t :: ts, b, h, x, hx => by
      rw [incr3, Bool.and_eq_true, decide_eq_true_eq] at h
      rcases List.mem_cons.mp hx with rfl | hx
      · exact h.1
      · exact le_trans (by omega) (incr3_le ts (t + 3) h.2 x hx)

theorem le_endB : ∀ (l : List Nat) (b : Nat), incr3 b l = true → b ≤ endB b l
  | [], b, _ => le_refl b
  | t :: ts, b, h => by
      rw [incr3, Bool.and_eq_true, decide_eq_true_eq] at h
      rw [endB]
      exact le_trans (by omega) (le_endB ts (t + 3) h.2)

theorem lt_endB : ∀ (l : List Nat) (b : Nat), incr3 b l = true → ∀ x ∈ l, x + 3 ≤ endB b l
  | [], _, _, x, hx => absurd hx (List.not_mem_nil x)
  | t :: ts, b, h, x, hx => by
      rw [incr3, Bool.and_eq_true, decide_eq_true_eq] at h
      rw [endB]
      rcases List.mem_cons.mp hx with rfl | hx
      · exact le_endB ts (x + 3) h.2
      · exact lt_endB ts (t + 3) h.2 x hx

theorem incr3_append : ∀ (l1 l2 : List Nat) (b : Nat), incr3 b (l1 ++ l2) = true →
    incr3 b l1 = true ∧ incr3 (endB b l1) l2 = true
  | [], _, _, h => ⟨rfl, h⟩
  | t :: ts, l2, b, h => by
      rw [List.cons_append, incr3, Bool.and_eq_true] at h
      have hrec := incr3_append ts l2 (t + 3) h.2
      rw [incr3, Bool.and_eq_true]
      exact ⟨⟨h.1, hrec.1⟩, by rw [endB]; exact hrec.2⟩

theorem incr3_pairwise : ∀ (l : List Nat) (b : Nat), incr3 b l = true →
    List.Pairwise (· < ·) l
  | [], _, _ => List.Pairwise.nil
  | t :: ts, b, h => by
      rw [incr3, Bool.and_eq_true, decide_eq_true_eq] at h
      refine List.Pairwise.cons ?_ (incr3_pairwise ts (t + 3) h.2)
      intro x hx
      have := incr3_le ts (t + 3) h.2 x hx
      omega

/-! ### Message-id traces -/

theorem map_id_update (l : List Message) (planId : String) (f : Message → Message)
    (hf : ∀ m, (f m).id = m.id) :
    (l.map (fun m => if m.id = planId then f m else m)).map Message.id
      = l.map Message.id := by
  rw [List.map_map]
  refine List.map_congr_left ?_
  intro m _
  by_cases h : m.id = planId <;> simp [h, hf]

theorem revealStep_ids (planId : String) (total t c : Nat) (a : AgentResponse) (s : UIState) :
    (revealStep planId total t c a s).messages.map Message.id
      = s.messages.map Message.id ++ [Nat.repr t ++ "_" ++ a.agent] := by
  simp only [revealStep, List.map_append]
  rw [map_id_update s.messages planId (fun m => withProgress m (progressVal c total))
    (fun m => rfl)]
  rfl

theorem revealLoop_ids (planId : String) (total : Nat) (clk : Nat → Nat) :
    ∀ (l : List AgentResponse) (c : Nat) (s : UIState),
      (revealLoop planId total clk l c s).messages.map Message.id
        = s.messages.map Message.id ++ resultIds clk c l
  | [], _, s => by simp [revealLoop, resultIds]
  | a :: rest, c, s => by
      rw [revealLoop, revealLoop_ids planId total clk rest (c + 1) _, revealStep_ids,
        resultIds]
      simp [List.append_assoc]

theorem sendMessage_ok_ids (tInit : Nat) (sres : Except Unit CreateSessionRes)
    (clk : Nat → Nat) (resp : QueryResponse) (text : String) (s : UIState) :
    (sendMessage tInit sres clk (.ok resp) text s).messages.map Message.id
      = s.messages.map Message.id ++ Nat.repr (clk 0) :: Nat.repr (clk 1 + 1)
          :: Nat.repr (clk 2 + 2) :: resultIds clk 0 resp.agent_responses := by
  simp only [sendMessage]
  rw [map_id_update _ (mkPlanMsg (clk 2) resp).id completePlan (fun m => rfl),
    revealLoop_ids]
  simp [mkUserMsg, mkReasoningMsg, mkPlanMsg, List.append_assoc]

theorem sendMessage_error_ids (tInit : Nat) (sres : Except Unit CreateSessionRes)
    (clk : Nat → Nat) (e : Option String) (text : String) (s : UIState) :
    (sendMessage tInit sres clk (.error e) text s).messages.map Message.id
      = s.messages.map Message.id ++ [Nat.repr (clk 0), Nat.repr (clk 1)] := by
  rw [sendMessage_error_messages]
  simp [mkUserMsg, mkErrMsg]

theorem uploadDataset_ok_ids (r : UploadRes) (t : Nat) (s : UIState) :
    (uploadDataset (.ok r) t s).messages.map Message.id
      = s.messages.map Message.id ++ [Nat.repr t] := by
  simp [uploadDataset]

theorem resultSrcs_render (clk : Nat → Nat) :
    ∀ (l : List AgentResponse) (c : Nat),
      (resultSrcs clk c l).map IdSrc.render = resultIds clk c l
  | [], _ => rfl
  | a :: rest, c => by
      rw [resultSrcs, resultIds, List.map_cons, resultSrcs_render clk rest (c + 1)]
      rfl

theorem resultSrcs_val (clk : Nat → Nat) :
    ∀ (l : List AgentResponse) (c : Nat),
      (resultSrcs clk c l).map IdSrc.val = resultReads clk c l
  | [], _ => rfl
  | a :: rest, c => by
      rw [resultSrcs, resultReads, List.map_cons, resultSrcs_val clk rest (c + 1)]
      rfl

/-! ### Id uniqueness invariant -/

theorem IdsOK_mono {B B' : Nat} (h : B ≤ B') {s : UIState} : IdsOK B s → IdsOK B' s := by
  rintro ⟨srcs, hids, hpw, hb⟩
  exact ⟨srcs, hids, hpw, fun x hx => lt_of_lt_of_le (hb x hx) h⟩

theorem IdsOK_nodup {B : Nat} {s : UIState} : IdsOK B s → (s.messages.map Message.id).Nodup := by
  rintro ⟨srcs, hids, hpw, _⟩
  rw [hids]
  exact List.Pairwise.map IdSrc.render (fun {x y} h => render_ne_of_val_lt x y h) hpw

theorem resultSrcs_val_mem (clk : Nat → Nat) (l : List AgentResponse) (c : Nat)
    {x : IdSrc} (hx : x ∈ resultSrcs clk c l) : x.val ∈ resultReads clk c l := by
  rw [← resultSrcs_val]
  exact List.mem_map_of_mem _ hx

theorem idsOK_applyOp (op : Op) (s : UIState) (B : Nat)
    (hok : IdsOK B s) (hr : incr3 B (opReads op) = true) :
    IdsOK (endB B (opReads op)) (applyOp op s) := by
  obtain ⟨srcs, hids, hpw, hb⟩ := hok
  cases op with
  | reset =>
      exact ⟨[], by simp [applyOp, resetSession], List.Pairwise.nil, by simp⟩
  | upload res t =>
      cases res with
      | error u =>
          have hBt : B ≤ t := by
            simpa [opReads, incr3] using hr
          refine IdsOK_mono ?_ ⟨srcs, hids, hpw, hb⟩
          show B ≤ t + 3
          omega
      | ok r =>
          have hBt : B ≤ t := by
            simpa [opReads, incr3] using hr
          refine ⟨srcs ++ [.num t], ?_, ?_, ?_⟩
          · rw [show applyOp (Op.upload (.ok r) t) s = uploadDataset (.ok r) t s from rfl,
              uploadDataset_ok_ids, List.map_append, hids]
            rfl
          · rw [List.pairwise_append]
            refine ⟨hpw, by simp, ?_⟩
            intro x hx y hy
            rcases List.mem_singleton.mp hy with rfl
            have hxB := hb x hx
            show x.val < t
            omega
          · intro x hx
            show x.val < t + 3
            rcases List.mem_append.mp hx with hx | hx
            · have := hb x hx
              omega
            · rcases List.mem_singleton.mp hx with rfl
              show t < t + 3
              omega
  | send tInit sres clk api text =>
      cases api with
      | error e =>
          have h' : B ≤ tInit ∧ tInit + 3 ≤ clk 0 ∧ clk 0 + 3 ≤ clk 1 := by
            simpa [opReads, incr3, and_assoc] using hr
          obtain ⟨hB0, h0, h1⟩ := h'
          refine ⟨srcs ++ [.num (clk 0), .num (clk 1)], ?_, ?_, ?_⟩
          · rw [show applyOp (Op.send tInit sres clk (.error e) text) s
                = sendMessage tInit sres clk (.error e) text s from rfl,
              sendMessage_error_ids, List.map_append, hids]
            rfl
          · rw [List.pairwise_append]
            refine ⟨hpw, ?_, ?_⟩
            · refine List.Pairwise.cons ?_ (by simp)
              intro y hy
              rcases List.mem_singleton.mp hy with rfl
              show clk 0 < clk 1
              omega
            · intro x hx y hy
              have hxB := hb x hx
              rcases List.mem_cons.mp hy with rfl | hy
              · show x.val < clk 0
                omega
              · rcases List.mem_singleton.mp hy with rfl
                show x.val < clk 1
                omega
          · intro x hx
            show x.val < clk 1 + 3
            rcases List.mem_append.mp hx with hx | hx
            · have := hb x hx
              omega
            · rcases List.mem_cons.mp hx with rfl | hx
              · show clk 0 < clk 1 + 3
                omega
              · rcases List.mem_singleton.mp hx with rfl
                show clk 1 < clk 1 + 3
                omega
      | ok resp =>
          have h' : B ≤ tInit ∧ tInit + 3 ≤ clk 0 ∧ clk 0 + 3 ≤ clk 1 ∧ clk 1 + 3 ≤ clk 2
              ∧ incr3 (clk 2 + 3) (resultReads clk 0 resp.agent_responses) = true := by
            simpa [opReads, incr3, and_assoc] using hr
          obtain ⟨hB0, h0, h1, h2, hrest⟩ := h'
          have hresLB : ∀ x ∈ resultSrcs clk 0 resp.agent_responses, clk 2 + 3 ≤ x.val :=
            fun x hx => incr3_le _ _ hrest x.val (resultSrcs_val_mem clk _ 0 hx)
          have hresUB : ∀ x ∈ resultSrcs clk 0 resp.agent_responses,
              x.val + 3 ≤ endB (clk 2 + 3) (resultReads clk 0 resp.agent_responses) :=
            fun x hx => lt_endB _ _ hrest x.val (resultSrcs_val_mem clk _ 0 hx)
          have hE : clk 2 + 3 ≤ endB (clk 2 + 3) (resultReads clk 0 resp.agent_responses) :=
            le_endB _ _ hrest
          refine ⟨srcs ++ (.num (clk 0) :: .num (clk 1 + 1) :: .num (clk 2 + 2)
              :: resultSrcs clk 0 resp.agent_responses), ?_, ?_, ?_⟩
          · rw [show applyOp (Op.send tInit sres clk (.ok resp) text) s
                = sendMessage tInit sres clk (.ok resp) text s from rfl,
              sendMessage_ok_ids, List.map_append, hids, List.map_cons, List.map_cons,
              List.map_cons, resultSrcs_render]
            rfl
          · rw [List.pairwise_append]
            refine ⟨hpw, ?_, ?_⟩
            · refine List.Pairwise.cons ?_ (List.Pairwise.cons ?_ (List.Pairwise.cons ?_ ?_))
              · intro y hy
                rcases List.mem_cons.mp hy with rfl | hy
                · show clk 0 < clk 1 + 1
                  omega
                rcases List.mem_cons.mp hy with rfl | hy
                · show clk 0 < clk 2 + 2
                  omega
                · have := hresLB y hy
                  show clk 0 < y.val
                  omega
              · intro y hy
                rcases List.mem_cons.mp hy with rfl | hy
                · show clk 1 + 1 < clk 2 + 2
                  omega
                · have := hresLB y hy
                  show clk 1 + 1 < y.val
                  omega
              · intro y hy
                have := hresLB y hy
                show clk 2 + 2 < y.val
                omega
              · rw [← List.pairwise_map (f := IdSrc.val) (R := (· < ·)), resultSrcs_val]
                exact incr3_pairwise _ _ hrest
            · intro x hx y hy
              have hxB := hb x hx
              rcases List.mem_cons.mp hy with rfl | hy
              · show x.val < clk 0
                omega
              rcases List.mem_cons.mp hy with rfl | hy
              · show x.val < clk 1 + 1
                omega
              rcases List.mem_cons.mp hy with rfl | hy
              · show x.val < clk 2 + 2
                omega
              · have := hresLB y hy
                show x.val < y.val
                omega
          · intro x hx
            show x.val < endB (clk 2 + 3) (resultReads clk 0 resp.agent_responses)
            rcases List.mem_append.mp hx with hx | hx
            · have := hb x hx
              omega
            rcases List.mem_cons.mp hx with rfl | hx
            · show clk 0 < endB (clk 2 + 3) (resultReads clk 0 resp.agent_responses)
              omega
            rcases List.mem_cons.mp hx with rfl | hx
            · show clk 1 + 1 < endB (clk 2 + 3) (resultReads clk 0 resp.agent_responses)
              omega
            rcases List.mem_cons.mp hx with rfl | hx
            · show clk 2 + 2 < endB (clk 2 + 3) (resultReads clk 0 resp.agent_responses)
              omega
            · have := hresUB x hx
              omega

theorem idsOK_runOps : ∀ (ops : List Op) (s : UIState) (B : Nat),
    IdsOK B s → incr3 B (runReads ops) = true → ∃ B', IdsOK B' (runOps ops s)
  | [], s, B, h, _ => ⟨B, h⟩
  | op :: rest, s, B, h, hr => by
      rw [runReads] at hr
      obtain ⟨h1, h2⟩ := incr3_append _ _ _ hr
      exact idsOK_runOps rest _ _ (idsOK_applyOp op s B h h1) h2

/-- C5 (amended): message ids are unique within a session provided the
`Date.now()` readings strictly increase with gaps of at least 3 milliseconds
(3 because the store offsets a reading by up to 2 when deriving an id,
uiStore.ts:162): for every command sequence from the fresh store whose clock
readings satisfy this discipline, all message ids are pairwise distinct.
Without the discipline ids can collide (see the counterexample: two messages
created in the same millisecond share an id). -/
theorem c5_messageIds_nodup (ops : List Op) (h : incr3 0 (runReads ops) = true) :
    ((runOps ops initState).messages.map Message.id).Nodup := by
  obtain ⟨B', hB⟩ := idsOK_runOps ops initState 0
    ⟨[], rfl, List.Pairwise.nil, by simp⟩ h
  exact IdsOK_nodup hB

/-- C5 witness: the amended theorem applied to a query (two agent results)
followed by an upload, on a clock advancing 3ms per reading. -/
theorem c5_messageIds_nodup_witness :
    incr3 0 (runReads [Op.send 3 (.ok { session_id := some "s" }) (fun i => 6 + 3 * i)
        (.ok demoResp) "hi", Op.upload (.ok demoUpload) 21]) = true ∧
    ((runOps [Op.send 3 (.ok { session_id := some "s" }) (fun i => 6 + 3 * i)
        (.ok demoResp) "hi", Op.upload (.ok demoUpload) 21]
      initState).messages.map Message.id).Nodup :=
  ⟨by decide,
    c5_messageIds_nodup [Op.send 3 (.ok { session_id := some "s" }) (fun i => 6 + 3 * i)
      (.ok demoResp) "hi", Op.upload (.ok demoUpload) 21] (by decide)⟩
